import Mathlib

/-!
Verification model of the food_recognizer recipe pipeline.

The embedding follows the TypeScript source of the API route
(parseRecipeFromResponse, extractRecipeFromText, validateAndFormatRecipe,
POST) and of utils/imageUtils.ts (getUnitSystemPrompt).  JavaScript values
flowing out of JSON.parse are modelled by the Json inductive; every JS
operation that can throw (JSON.parse on bad input, property access on null)
is modelled with Option and the catch blocks of the source are modelled by
matching on none.
-/

/-- Model of a JavaScript value produced by JSON.parse.  Numbers keep their
source lexeme (no claim depends on numeric value, only on the type tag). -/
inductive Json where
| null : Json
| bool (b : Bool) : Json
| num (lexeme : String) : Json
| str (s : String) : Json
| arr (elems : List Json) : Json
| obj (fields : List (String × Json)) : Json

/-- Hex digit test for the \u escape of JSON strings. -/
def isHexDigitC (c : Char) : Bool :=
  c.isDigit || ('a' ≤ c && c ≤ 'f') || ('A' ≤ c && c ≤ 'F')

/-- Whitespace accepted by JSON.parse (ECMA-404): space, tab, newline, return. -/
def jsonWsC (c : Char) : Bool :=
  c = ' ' || c = '\t' || c = '\n' || c = '\r'

/-- Decode the body of a JSON string literal after the opening quote.
Returns the decoded characters and the input after the closing quote. -/
def strBody : List Char → Option (List Char × List Char)
| [] => none
| '"' :: rest => some ([], rest)
| '\\' :: 'u' :: h1 :: h2 :: h3 :: h4 :: rest =>
  if isHexDigitC h1 && isHexDigitC h2 && isHexDigitC h3 && isHexDigitC h4 then
    (strBody rest).map (fun p =>
      (Char.ofNat (4096 * hexVal h1 + 256 * hexVal h2 + 16 * hexVal h3 + hexVal h4) :: p.1, p.2))
  else none
| '\\' :: e :: rest =>
  match escChar e with
  | some c => (strBody rest).map (fun p => (c :: p.1, p.2))
  | none => none
| c :: rest =>
  if c.val < 32 then none
  else (strBody rest).map (fun p => (c :: p.1, p.2))
where
  hexVal (c : Char) : Nat :=
    if c.isDigit then c.toNat - 48
    else if 'a' ≤ c && c ≤ 'f' then c.toNat - 87
    else if 'A' ≤ c && c ≤ 'F' then c.toNat - 55
    else 0
  escChar : Char → Option Char
  | '"' => some '"'
  | '\\' => some '\\'
  | '/' => some '/'
  | 'b' => some (Char.ofNat 8)
  | 'f' => some (Char.ofNat 12)
  | 'n' => some '\n'
  | 'r' => some '\r'
  | 't' => some '\t'
  | _ => none

/-- Lex a JSON number literal, returning its lexeme and the rest. -/
def lexNumber (cs : List Char) : Option (List Char × List Char) :=
  let (sign, cs1) := match cs with
    | '-' :: r => (['-'], r)
    | _ => (([] : List Char), cs)
  match cs1 with
  | c :: _ =>
    if c.isDigit then
      let intPart := if c = '0' then [c] else cs1.takeWhile Char.isDigit
      let rest1 := cs1.drop intPart.length
      let (fracPart, rest2) := match rest1 with
        | '.' :: r =>
          let ds := r.takeWhile Char.isDigit
          if ds = [] then (([] : List Char), rest1) else ('.' :: ds, r.drop ds.length)
        | _ => ([], rest1)
      if fracPart = [] && (match rest1 with | '.' :: _ => true | _ => false) then none
      else
        let (expPart, rest3) := match rest2 with
          | e :: r =>
            if e = 'e' || e = 'E' then
              let (es, r2) := match r with
                | s :: r2 => if s = '+' || s = '-' then ([e, s], r2) else ([e], r)
                | [] => ([e], r)
              let ds := r2.takeWhile Char.isDigit
              if ds = [] then (([] : List Char), rest2) else (es ++ ds, r2.drop ds.length)
            else ([], rest2)
          | [] => ([], rest2)
        if expPart = [] && (match rest2 with | e :: _ => e = 'e' || e = 'E' | [] => false) then none
        else some (sign ++ intPart ++ fracPart ++ expPart, rest3)
    else none
  | [] => none

mutual

/-- Recursive-descent model of JSON.parse on a character list.  The Nat
argument is fuel; jsonParse supplies length + 1 which always suffices
because every recursive call consumes at least one character first. -/
def parseVal : Nat → List Char → Option (Json × List Char)
| 0, _ => none
| Nat.succ n, cs =>
  match cs.dropWhile jsonWsC with
  | '{' :: r =>
    (match r.dropWhile jsonWsC with
     | '}' :: r2 => some (Json.obj [], r2)
     | _ => (parseMembers n r []).map (fun p => (Json.obj p.1, p.2)))
  | '[' :: r =>
    (match r.dropWhile jsonWsC with
     | ']' :: r2 => some (Json.arr [], r2)
     | _ => (parseElems n r []).map (fun p => (Json.arr p.1, p.2)))
  | '"' :: r => (strBody r).map (fun p => (Json.str ⟨p.1⟩, p.2))
  | 't' :: r => if r.take 3 = ['r', 'u', 'e'] then some (Json.bool true, r.drop 3) else none
  | 'f' :: r => if r.take 4 = ['a', 'l', 's', 'e'] then some (Json.bool false, r.drop 4) else none
  | 'n' :: r => if r.take 3 = ['u', 'l', 'l'] then some (Json.null, r.drop 3) else none
  | c :: r =>
    if c = '-' || c.isDigit then
      (lexNumber (c :: r)).map (fun p => (Json.num ⟨p.1⟩, p.2))
    else none
  | [] => none

/-- Parse the members of a JSON object (after the opening brace). -/
def parseMembers : Nat → List Char → List (String × Json) →
    Option (List (String × Json) × List Char)
| 0, _, _ => none
| Nat.succ n, cs, acc =>
  match cs.dropWhile jsonWsC with
  | '"' :: r =>
    (match strBody r with
     | some (k, r2) =>
       (match r2.dropWhile jsonWsC with
        | ':' :: r3 =>
          (match parseVal n r3 with
           | some (v, r4) =>
             (match r4.dropWhile jsonWsC with
              | ',' :: r5 => parseMembers n r5 (acc ++ [(⟨k⟩, v)])
              | '}' :: r5 => some (acc ++ [(⟨k⟩, v)], r5)
              | _ => none)
           | none => none)
        | _ => none)
     | none => none)
  | _ => none

/-- Parse the elements of a JSON array (after the opening bracket). -/
def parseElems : Nat → List Char → List Json → Option (List Json × List Char)
| 0, _, _ => none
| Nat.succ n, cs, acc =>
  match parseVal n cs with
  | some (v, r) =>
    (match r.dropWhile jsonWsC with
     | ',' :: r2 => parseElems n r2 (acc ++ [v])
     | ']' :: r2 => some (acc ++ [v], r2)
     | _ => none)
  | none => none

end

/-- Model of JavaScript JSON.parse: parses the whole string as one JSON
value, allowing surrounding JSON whitespace; any other leftover input is a
parse error (modelled as none, the source catches the exception). -/
def jsonParse (s : String) : Option Json :=
  match parseVal (s.data.length + 1) s.data with
  | some (j, rest) => if rest.dropWhile jsonWsC = [] then some j else none
  | none => none

/-- The backtick character (written by code to avoid literal backticks). -/
def btick : Char := Char.ofNat 96

/-- Whitespace in the sense of the JavaScript regex class \s and of
String.prototype.trim: WhiteSpace plus LineTerminator code points. -/
def jsWs (c : Char) : Bool :=
  c.val = 9 || c.val = 10 || c.val = 11 || c.val = 12 || c.val = 13 ||
  c.val = 32 || c.val = 160 || c.val = 5760 ||
  (8192 ≤ c.val && c.val ≤ 8202) ||
  c.val = 8232 || c.val = 8233 || c.val = 8239 || c.val = 8287 ||
  c.val = 12288 || c.val = 65279

/-- Characters matched by the JavaScript regex dot: everything except the
four LineTerminator code points. -/
def dotChar (c : Char) : Bool :=
  !(c = '\n' || c = '\r' || c.val = 8232 || c.val = 8233)

/-- ASCII lowercasing, the effect of toLowerCase and of the /i flag on the
ASCII inputs these regexes are applied to. -/
def asciiLower (c : Char) : Char :=
  if 'A' ≤ c && c ≤ 'Z' then Char.ofNat (c.val.toNat + 32) else c

/-- Characters matched by the JavaScript regex class \w. -/
def isWordChar (c : Char) : Bool :=
  c.isAlpha || c.isDigit || c = '_'

/-- Does the first list start with the second one? -/
def startsWithL : List Char → List Char → Bool
| _, [] => true
| [], _ :: _ => false
| c :: cs, p :: ps => c = p && startsWithL cs ps

/-- Substring test, the model of String.prototype.includes. -/
def containsSubstr : List Char → List Char → Bool
| [], pat => startsWithL [] pat
| c :: rest, pat => startsWithL (c :: rest) pat || containsSubstr rest pat

/-- Case-insensitively strip a (lowercase) literal pattern from the front,
returning the remainder on success. -/
def stripCI : List Char → List Char → Option (List Char)
| [], cs => some cs
| _ :: _, [] => none
| p :: ps, c :: cs => if asciiLower c = p then stripCI ps cs else none

/-- The naturals n, n-1, ..., 0: the order in which a greedy subpattern
offers match lengths to the rest of a regex. -/
def descRange (n : Nat) : List Nat :=
  (List.range (n + 1)).reverse

/-- Trim in the sense of String.prototype.trim, on character lists. -/
def jsTrimL (cs : List Char) : List Char :=
  ((cs.dropWhile jsWs).reverse.dropWhile jsWs).reverse

/-- Model of String.prototype.trim. -/
def jsTrim (s : String) : String :=
  ⟨jsTrimL s.data⟩

/-- Split on the newline character, the model of split applied with the
one-character separator used by the source. -/
def splitLines : List Char → List (List Char)
| [] => [[]]
| c :: rest =>
  if c = '\n' then [] :: splitLines rest
  else
    match splitLines rest with
    | l :: ls => (c :: l) :: ls
    | [] => [[c]]

/-- Property lookup on a parsed JSON object: with duplicate keys JSON.parse
keeps the last value, so the last binding wins. -/
def lookupLast : List (String × Json) → String → Option Json
| [], _ => none
| (k, v) :: rest, key =>
  match lookupLast rest key with
  | some r => some r
  | none => if k = key then some v else none

/-- Property access on a JavaScript value that is not null: objects expose
their fields, every other value has no own properties (undefined). -/
def getField (j : Json) (key : String) : Option Json :=
  match j with
  | Json.obj fs => lookupLast fs key
  | _ => none

/-- The Recipe record as the source builds it.  ingredients and
instructions hold raw JSON values because validateAndFormatRecipe passes
arrays through without validating their elements; cookingTime and servings
keep the raw numeric value when the field was a number. -/
structure Recipe where
  title : String
  description : String
  ingredients : List Json
  instructions : List Json
  cookingTime : Option Json
  servings : Option Json

/-- Model of validateAndFormatRecipe.  Property access on null throws a
TypeError in JavaScript (caught by the caller), modelled by none; every
other value yields a Recipe by per-field coercion. -/
def validateAndFormatRecipe : Json → Option Recipe
| Json.null => none
| j => some
  { title := match getField j "title" with
      | some (Json.str s) => s
      | _ => "Unknown Dish"
    description := match getField j "description" with
      | some (Json.str s) => s
      | _ => ""
    ingredients := match getField j "ingredients" with
      | some (Json.arr xs) => xs
      | _ => []
    instructions := match getField j "instructions" with
      | some (Json.arr xs) => xs
      | _ => []
    cookingTime := match getField j "cookingTime" with
      | some (Json.num n) => some (Json.num n)
      | _ => none
    servings := match getField j "servings" with
      | some (Json.num n) => some (Json.num n)
      | _ => none }

/-- After the closing brace of a fenced JSON candidate the source regex
demands optional whitespace and three backticks. -/
def closeOk (rest : List Char) : Bool :=
  (rest.dropWhile jsWs).take 3 = [btick, btick, btick]

/-- Greedy search for the capture of the fenced regex: the longest prefix
of the text after the opening brace that ends in a closing brace followed
by whitespace and three backticks.  The first argument is the reversed
candidate, the second the suffix moved past so far; moving right to left
realises the backtracking order of the greedy star. -/
def splitLongest : List Char → List Char → Option (List Char)
| [], _ => none
| c :: rp, rest =>
  if c = '}' && closeOk rest then some ((c :: rp).reverse)
  else splitLongest rp (c :: rest)

/-- The tag characters of a json-tagged fence. -/
def jsonTag : List Char := ['j', 's', 'o', 'n']

/-- Match the brace-delimited capture group starting at an opening brace. -/
def fencedBody (body : List Char) : Option (List Char) :=
  splitLongest body.reverse []

/-- After the three backticks and the optional tag: skip whitespace and
demand an opening brace. -/
def fencedOpen (rest : List Char) : Option (List Char) :=
  match rest.dropWhile jsWs with
  | c :: body => if c = '{' then fencedBody (c :: body) else none
  | [] => none

/-- Optional json tag after the opening fence, consumed when present
(the backtracking order of the regex option). -/
def fencedTag (rest : List Char) : Option (List Char) :=
  (if rest.take 4 = jsonTag then fencedOpen (rest.drop 4) else none) <|> fencedOpen rest

/-- Try to match the whole fenced regex at this exact position. -/
def fencedAt (cs : List Char) : Option (List Char) :=
  match cs with
  | a :: b :: c :: rest =>
    if a = btick && b = btick && c = btick then fencedTag rest else none
  | _ => none

/-- Leftmost match of the fenced-block regex over the whole text. -/
def fencedSearch : List Char → Option (List Char)
| [] => none
| c :: rest => fencedAt (c :: rest) <|> fencedSearch rest

/-- Model of the embedded-object regex: its capture runs from the first
opening brace to the last closing brace of the text (greedy star), and it
matches only when that span is non-degenerate. -/
def embeddedGroup (cs : List Char) : Option (List Char) :=
  let afterLast := cs.reverse.dropWhile (fun c => !(c = '}'))
  match afterLast with
  | [] => none
  | _ :: _ =>
    let fromOpen := afterLast.reverse.dropWhile (fun c => !(c = '{'))
    match fromOpen with
    | [] => none
    | _ :: _ => some fromOpen

/-- Model of the source's two chained match calls: the fenced regex first,
the embedded-object regex otherwise, returning the capture group. -/
def jsonMatchExtract (content : String) : Option String :=
  (fencedSearch content.data <|> embeddedGroup content.data).map (fun l => ⟨l⟩)

/-- Capture of the title-label regex after the colon: greedy whitespace
skip, then at least one dot-matched character.  When only whitespace
remains, backtracking hands back the rightmost non-LineTerminator
whitespace character as the capture. -/
def afterColonGroup (rest : List Char) : Option (List Char) :=
  let run := rest.takeWhile jsWs
  match rest.drop run.length with
  | c :: r => some ((c :: r).takeWhile dotChar)
  | [] =>
    match run.reverse.dropWhile (fun c => !dotChar c) with
    | c :: _ => some [c]
    | [] => none

/-- Try the Recipe/Title/Dish label (case-insensitive) at this position. -/
def titleLabelAt (cs : List Char) : Option (List Char) :=
  (stripCI "recipe".data cs <|> stripCI "title".data cs <|> stripCI "dish".data cs).bind
    fun r =>
      match r with
      | ':' :: r2 => afterColonGroup r2
      | _ => none

/-- Leftmost match of the labelled-title regex. -/
def labelTitle : List Char → Option (List Char)
| [] => none
| c :: rest => titleLabelAt (c :: rest) <|> labelTitle rest

/-- The fallback title regex: a lazy group of dot-matched characters from
the start of the text up to the first newline or the end. -/
def firstLineGroup (cs : List Char) : Option (List Char) :=
  let p := cs.takeWhile dotChar
  if p.isEmpty then none
  else
    match cs.drop p.length with
    | [] => some p
    | c :: _ => if c = '\n' then some p else none

/-- Title extraction of extractRecipeFromText: the labelled match, else the
first line, trimmed; else the fixed default. -/
def extractTitle (cs : List Char) : String :=
  match labelTitle cs <|> firstLineGroup cs with
  | some g => ⟨jsTrimL g⟩
  | none => "Recipe from Image"

/-- Optional plural s (case-insensitive) followed by a mandatory colon, as
in the section-heading regexes. -/
def colonAfterOptS : List Char → Option (List Char)
| c :: r =>
  if asciiLower c = 's' then
    match r with
    | ':' :: r2 => some r2
    | _ => none
  else if c = ':' then some r else none
| [] => none

/-- Try the Instructions/Directions/Steps/Method heading (with colon) at
this position, returning the rest after the colon. -/
def headingColonStrip (cs : List Char) : Option (List Char) :=
  ((stripCI "instruction".data cs).bind colonAfterOptS) <|>
  ((stripCI "direction".data cs).bind colonAfterOptS) <|>
  ((stripCI "step".data cs).bind colonAfterOptS) <|>
  ((stripCI "method".data cs).bind fun r =>
    match r with
    | ':' :: r2 => some r2
    | _ => none)

/-- Terminator of the lazy ingredient-section capture: a newline, optional
whitespace, and one of the instruction-style headings with its colon. -/
def sectionTerm : List Char → Bool
| c :: rest => c = '\n' && (headingColonStrip (rest.dropWhile jsWs)).isSome
| [] => false

/-- Lazy capture: extend until the first terminator position or the end of
the text (the end-of-input alternative of the regex). -/
def lazyBody : List Char → List Char → List Char
| acc, [] => acc.reverse
| acc, c :: rest =>
  if sectionTerm (c :: rest) then acc.reverse else lazyBody (c :: acc) rest

/-- Try the Ingredients heading (with colon) at this position. -/
def ingrAt (cs : List Char) : Option (List Char) :=
  (stripCI "ingredient".data cs).bind colonAfterOptS

/-- Leftmost match of the ingredient-section regex; its capture runs from
after the heading and greedy whitespace up to the next instruction-style
heading or the end of the text. -/
def ingredientSection : List Char → Option (List Char)
| [] => none
| c :: rest =>
  match ingrAt (c :: rest) with
  | some afterColon => some (lazyBody [] (afterColon.dropWhile jsWs))
  | none => ingredientSection rest

/-- Leftmost match of the instruction-section regex; its capture is the
whole remaining text after the heading and greedy whitespace. -/
def instrSection : List Char → Option (List Char)
| [] => none
| c :: rest =>
  match headingColonStrip (c :: rest) with
  | some afterColon => some (afterColon.dropWhile jsWs)
  | none => instrSection rest

/-- The bullet characters recognised before ingredient lines. -/
def bulletChar (c : Char) : Bool :=
  c = '-' || c = '•' || c = '*'

/-- Start-of-line digits, a dot and one whitespace character. -/
def numDotWsStart (l : List Char) : Bool :=
  let ds := l.takeWhile Char.isDigit
  !ds.isEmpty &&
  (match l.drop ds.length with
   | '.' :: c :: _ => jsWs c
   | _ => false)

/-- Filter on trimmed ingredient lines: non-empty and bulleted, numbered,
or containing no colon. -/
def ingrLineFilter (l : List Char) : Bool :=
  !l.isEmpty &&
  ((match l with | a :: b :: _ => bulletChar a && jsWs b | _ => false) ||
   numDotWsStart l ||
   l.all (fun c => !(c = ':')))

/-- Digits, a dot and greedy whitespace at this exact position, returning
the rest after the matched span. -/
def numDotAt (cs : List Char) : Option (List Char) :=
  let ds := cs.takeWhile Char.isDigit
  if ds.isEmpty then none
  else
    match cs.drop ds.length with
    | '.' :: r => some (r.dropWhile jsWs)
    | _ => none

/-- Replace the leftmost digits-dot-whitespace occurrence by nothing, the
unanchored second alternative of the marker-stripping regex. -/
def replaceFirstNumDot : List Char → List Char
| [] => []
| c :: rest =>
  match numDotAt (c :: rest) with
  | some rem => rem
  | none => c :: replaceFirstNumDot rest

/-- Strip a leading bullet with its whitespace, else the leftmost
digits-dot span: the marker-stripping replace of ingredient lines. -/
def stripBulletOrNum (l : List Char) : List Char :=
  match l with
  | c :: rest => if bulletChar c then rest.dropWhile jsWs else replaceFirstNumDot l
  | [] => []

/-- Tail of the quantity regex: greedy whitespace then a final group of at
least one dot-matched character reaching the end of the line. -/
def finalPart (rest : List Char) : Option String :=
  (descRange (rest.takeWhile jsWs).length).findSome? fun j =>
    let r := rest.drop j
    if !r.isEmpty && r.all dotChar then some (⟨r⟩ : String) else none

/-- Optional unit word of the quantity regex, greedy with backtracking,
then the final group. -/
def unitAndRest (rest : List Char) : Option (Option String × String) :=
  (((descRange (rest.takeWhile isWordChar).length).filter (fun i => 0 < i)).findSome? fun i =>
    (finalPart (rest.drop i)).map (fun nm => (some (⟨rest.take i⟩ : String), nm)))
  <|> (finalPart rest).map (fun nm => ((none : Option String), nm))

/-- Whitespace after the quantity group, greedy with backtracking. -/
def afterQty (g1 : List Char) (rest : List Char) : Option (String × String × String) :=
  (descRange (rest.takeWhile jsWs).length).findSome? fun j =>
    (unitAndRest (rest.drop j)).map fun p => ((⟨g1⟩ : String), p.1.getD "", p.2)

/-- Full backtracking model of the anchored quantity regex on a cleaned
ingredient line: leading digits with an optional simple fraction, optional
whitespace, an optional word, optional whitespace, and a non-empty
remainder; returns the three captures. -/
def qtyMatch (cs : List Char) : Option (String × String × String) :=
  ((descRange (cs.takeWhile Char.isDigit).length).filter (fun k => 0 < k)).findSome? fun k =>
    let g1 := cs.take k
    let rest := cs.drop k
    (match rest with
     | '/' :: r =>
       ((descRange (r.takeWhile Char.isDigit).length).filter (fun m => 0 < m)).findSome? fun m =>
         afterQty (g1 ++ '/' :: r.take m) (r.drop m)
     | _ => none) <|> afterQty g1 rest

/-- An ingredient object as extractRecipeFromText pushes it. -/
def mkIng (q u n : String) : Json :=
  Json.obj [("quantity", Json.str q), ("unit", Json.str u), ("name", Json.str n)]

/-- One filtered ingredient line: strip markers, trim, then decompose with
the quantity regex; with no decomposition the whole-line regex makes the
entire cleaned line both the quantity capture and the name. -/
def lineIngredient (l : List Char) : Option Json :=
  let cleaned := jsTrimL (stripBulletOrNum l)
  if cleaned.isEmpty then none
  else
    match qtyMatch cleaned with
    | some (q, u, n) => some (mkIng q u n)
    | none =>
      if cleaned.all dotChar then some (mkIng ⟨cleaned⟩ "" ⟨cleaned⟩)
      else none

/-- The ingredient list mined from the Ingredients section. -/
def ingredientItems (cs : List Char) : List Json :=
  match ingredientSection cs with
  | none => []
  | some body =>
    (((splitLines body).map jsTrimL).filter ingrLineFilter).filterMap lineIngredient

/-- Strip a leading digits-dot-whitespace numbering from an instruction
line (anchored replace). -/
def stripNumDot (l : List Char) : List Char :=
  match numDotAt l with
  | some rem => rem
  | none => l

/-- One instruction line: strip numbering, trim, keep lines longer than
ten characters. -/
def lineInstruction (l : List Char) : Option Json :=
  let cleaned := jsTrimL (stripNumDot l)
  if 10 < cleaned.length then some (Json.str ⟨cleaned⟩) else none

/-- The instruction list mined from the Instructions section. -/
def instructionItems (cs : List Char) : List Json :=
  match instrSection cs with
  | none => []
  | some body =>
    (((splitLines body).map jsTrimL).filter (fun l => !l.isEmpty)).filterMap lineInstruction

/-- The sentence separators of the last-resort split. -/
def sentSep (c : Char) : Bool :=
  c = '.' || c = '!' || c = '?'

/-- Split on maximal separator runs; the Nat argument is fuel (length + 1
always suffices because every step consumes at least one character). -/
def splitSentencesGo : Nat → List Char → List Char → List (List Char)
| 0, cur, _ => [cur.reverse]
| Nat.succ _, cur, [] => [cur.reverse]
| Nat.succ n, cur, c :: rest =>
  if sentSep c then cur.reverse :: splitSentencesGo n [] (rest.dropWhile sentSep)
  else splitSentencesGo n (c :: cur) rest

/-- Model of split on the separator-run regex. -/
def splitSentences (cs : List Char) : List (List Char) :=
  splitSentencesGo (cs.length + 1) [] cs

/-- The trimmed sentences longer than twenty characters that the
last-resort fallback classifies. -/
def sentencesOf (cs : List Char) : List (List Char) :=
  ((splitSentences cs).map jsTrimL).filter (fun t => 20 < t.length)

/-- The unit words of the quantity-unit sentence pattern. -/
def unitWords : List (List Char) :=
  ["cup".data, "tablespoon".data, "teaspoon".data, "pound".data, "ounce".data, "gram".data]

/-- One of the unit words at this position (case-insensitive). -/
def unitWordAt (cs : List Char) : Bool :=
  unitWords.any (fun w => (stripCI w cs).isSome)

/-- Somewhere in the sentence: digits, optional whitespace, a unit word. -/
def hasQtyUnit : List Char → Bool
| [] => false
| c :: rest =>
  (c.isDigit && unitWordAt (((c :: rest).dropWhile Char.isDigit).dropWhile jsWs)) ||
  hasQtyUnit rest

/-- The cooking verbs of the instruction sentence pattern. -/
def cookingVerbs : List (List Char) :=
  ["heat".data, "cook".data, "bake".data, "mix".data, "stir".data, "add".data, "combine".data]

/-- A cooking verb somewhere in the sentence (case-insensitive). -/
def hasCookingVerb : List Char → Bool
| [] => false
| c :: rest =>
  cookingVerbs.any (fun w => (stripCI w (c :: rest)).isSome) || hasCookingVerb rest

/-- The ingredient test of the sentence fallback: the word ingredient in
the lowercased sentence, or a quantity-unit pattern. -/
def ingredientCriteria (s : List Char) : Bool :=
  containsSubstr (s.map asciiLower) "ingredient".data || hasQtyUnit s

/-- The instruction test of the sentence fallback: a cooking verb. -/
def instructionCriteria (s : List Char) : Bool :=
  hasCookingVerb s

/-- The last-resort classification: each sentence is tested against the
ingredient criteria first and lands in exactly one list. -/
def classifySentences : List (List Char) → List Json × List Json
| [] => ([], [])
| s :: rest =>
  let p := classifySentences rest
  if ingredientCriteria s then (mkIng "1" "" ⟨s⟩ :: p.1, p.2)
  else if instructionCriteria s then (p.1, Json.str ⟨s⟩ :: p.2)
  else p

/-- The placeholder ingredient of the free-text fallback. -/
def placeholderIngredient : Json :=
  mkIng "1" "" "Ingredients could not be extracted from the image"

/-- The placeholder instruction of the free-text fallback. -/
def placeholderInstruction : Json :=
  Json.str "Instructions could not be extracted. Please refer to the original AI response or try uploading a clearer image."

/-- Model of extractRecipeFromText: mine the sections, fall back to
sentence classification when both are empty, and guarantee one placeholder
entry per empty list. -/
def extractRecipeFromText (content : String) : Recipe :=
  let cs := content.data
  let ings0 := ingredientItems cs
  let instrs0 := instructionItems cs
  let pair :=
    if ings0.length = 0 ∧ instrs0.length = 0 then classifySentences (sentencesOf cs)
    else (ings0, instrs0)
  { title := extractTitle cs
    description := "Recipe generated from image analysis"
    ingredients := if 0 < pair.1.length then pair.1 else [placeholderIngredient]
    instructions := if 0 < pair.2.length then pair.2 else [placeholderInstruction]
    cookingTime := none
    servings := none }

/-- The inner try of parseRecipeFromResponse: fenced or embedded JSON
first; with no such candidate, one more structured parse of the trimmed
text; any failure inside this block falls back to text extraction. -/
def recoverFromText (content : String) : Recipe :=
  match jsonMatchExtract content with
  | some g =>
    (match jsonParse g with
     | some j =>
       (match validateAndFormatRecipe j with
        | some r => r
        | none => extractRecipeFromText content)
     | none => extractRecipeFromText content)
  | none =>
    (match jsonParse (jsTrim content) with
     | some j =>
       (match validateAndFormatRecipe j with
        | some r => r
        | none => extractRecipeFromText content)
     | none => extractRecipeFromText content)

/-- Model of parseRecipeFromResponse: direct JSON parse and validation,
with every thrown error caught and routed to the recovery chain. -/
def parseRecipeFromResponse (content : String) : Recipe :=
  match jsonParse content with
  | some j =>
    (match validateAndFormatRecipe j with
     | some r => r
     | none => recoverFromText content)
  | none => recoverFromText content

/-- Is this JSON value a string? -/
def Json.isStr : Json → Bool
| Json.str _ => true
| _ => false

/-- The Ingredient element shape of the Data Model: name, quantity and
unit present and strings. -/
def ingredientShaped (j : Json) : Bool :=
  (match getField j "name" with | some (Json.str _) => true | _ => false) &&
  (match getField j "quantity" with | some (Json.str _) => true | _ => false) &&
  (match getField j "unit" with | some (Json.str _) => true | _ => false)

/-- A cookingTime or servings field as coerced by the pipeline: unset or a
raw JSON number. -/
def numericOrUnset : Option Json → Prop
| none => True
| some (Json.num _) => True
| some _ => False

/-- The two-valued unit preference. -/
inductive UnitSystem where
| metric : UnitSystem
| imperial : UnitSystem
deriving DecidableEq

/-- Model of getUnitSystemPrompt from utils/imageUtils.ts. -/
def getUnitSystemPrompt : UnitSystem → String
| UnitSystem.metric =>
  "Use METRIC units only:\n- Weights: grams (g), kilograms (kg)\n- Volumes: milliliters (ml), liters (L), tablespoons, teaspoons\n- Temperature: Celsius (°C)\n- Example: \"250g flour\", \"500ml milk\", \"2 tablespoons olive oil\", \"180°C\""
| UnitSystem.imperial =>
  "Use IMPERIAL (US) units only:\n- Weights: ounces (oz), pounds (lbs)\n- Volumes: cups, fluid ounces (fl oz), tablespoons (tbsp), teaspoons (tsp)\n- Temperature: Fahrenheit (°F)\n- Example: \"2 cups flour\", \"1 cup milk\", \"2 tablespoons olive oil\", \"350°F\""

/-- The fixed prompt constant of the API route, copied verbatim. -/
def RECIPE_PROMPT : String :=
  "\nAnalyze this food image and generate a complete recipe. \nIMPORTANT: Respond ONLY with a valid JSON object. Do not include any markdown formatting, explanations, or other text.\n\nThe JSON object must contain exactly these fields:\n\x7b\n  \"title\": \"Name of the dish\",\n  \"description\": \"Brief description (1-2 sentences)\",\n  \"ingredients\": [\n    \x7b\n      \"name\": \"ingredient name\",\n      \"quantity\": \"amount\",\n      \"unit\": \"measurement unit\"\n    \x7d\n  ],\n  \"instructions\": [\"step 1\", \"step 2\", \"step 3\"],\n  \"cookingTime\": 30,\n  \"servings\": 4\n\x7d\n\nMake reasonable assumptions about quantities and cooking methods based on what you can see in the image.\nResponse must be valid JSON only.\n"

/-- The fixed sample recipe returned when no usable credential is set. -/
def sampleRecipe : Recipe :=
  { title := "Sample Recipe (API Key Required)"
    description := "This is a sample recipe. Please configure your OpenAI API key in .env.local to generate real recipes from images."
    ingredients :=
      [ Json.obj [("name", Json.str "Sample ingredient 1"), ("quantity", Json.str "1"), ("unit", Json.str "cup")],
        Json.obj [("name", Json.str "Sample ingredient 2"), ("quantity", Json.str "2"), ("unit", Json.str "tablespoons")],
        Json.obj [("name", Json.str "Sample ingredient 3"), ("quantity", Json.str "1"), ("unit", Json.str "piece")] ]
    instructions :=
      [ Json.str "Configure your OpenAI API key in the .env.local file",
        Json.str "Replace \"your_openai_api_key_here\" with your actual API key",
        Json.str "Restart the development server",
        Json.str "Upload an image to generate a real recipe" ]
    cookingTime := some (Json.num "30")
    servings := some (Json.num "4") }

/-- The credential test of the route: a missing or empty environment value
is falsy, and a value containing the placeholder text counts as not
configured. -/
def keyNotConfigured : Option String → Bool
| none => true
| some k => k = "" || containsSubstr k.data "your_openai_api_key_here".data

/-- The observable outcome of the POST handler up to the external call: a
client error, the sample-recipe success (no network call), or the outgoing
service call carrying the prompt it would send. -/
inductive HandlerStep where
| badRequest : HandlerStep
| sampleResponse : Recipe → HandlerStep
| callService : String → HandlerStep

/-- Model of the POST handler before the external call.  The request body
carries an optional unit preference, but the source destructures only
imageBase64 and sends the fixed RECIPE_PROMPT. -/
def handlePOST (apiKey : Option String) (imageBase64 : String)
    (unitSystem : Option UnitSystem) : HandlerStep :=
  if imageBase64 = "" then HandlerStep.badRequest
  else if keyNotConfigured apiKey then HandlerStep.sampleResponse sampleRecipe
  else HandlerStep.callService RECIPE_PROMPT

/-- The behaviour the specification describes for its step 3: after the
direct parse and the fenced or embedded extraction fail, trim the whole
text and retry a structured parse before free-text extraction.  Written
from the specification to compare against parseRecipeFromResponse. -/
def claimedTrimmedRetry (content : String) : Recipe :=
  match jsonParse (jsTrim content) with
  | some j =>
    (match validateAndFormatRecipe j with
     | some r => r
     | none => extractRecipeFromText content)
  | none => extractRecipeFromText content

/-- Concrete test input: the Omelette scenario of the specification. -/
def omeletteInput : String :=
  "\x7b\"title\":\"Omelette\",\"ingredients\":[\x7b\"name\":\"egg\",\"quantity\":\"2\",\"unit\":\"\"\x7d],\"instructions\":[\"Beat eggs\",\"Cook in pan\"]\x7d"

/-- The fields JSON.parse recovers from the Omelette input. -/
def omeletteFields : List (String × Json) :=
  [("title", Json.str "Omelette"),
   ("ingredients", Json.arr
     [Json.obj [("name", Json.str "egg"), ("quantity", Json.str "2"), ("unit", Json.str "")]]),
   ("instructions", Json.arr [Json.str "Beat eggs", Json.str "Cook in pan"])]

/-- Concrete test input: the interior of the fenced Soup scenario. -/
def soupInner : String :=
  "\x7b\"title\":\"Soup\",\"ingredients\":[],\"instructions\":[\"Boil water\"]\x7d"

/-- The Soup interior wrapped in a json-tagged fence. -/
def soupFenced : String := "```json\n" ++ soupInner ++ "\n```"

/-- Concrete test input: the Pancakes prose scenario of the specification. -/
def pancakesInput : String :=
  "Recipe: Pancakes\n\nIngredients:\n- 2 cups flour\n- 1 cup milk\n\nInstructions:\n1. Mix ingredients together\n2. Cook on griddle until golden"

/-- Concrete input whose embedded-brace candidate fails to parse while the
trimmed whole text parses: a JSON array behind a no-break space. -/
def c4Input : String := "\u00A0[\x7b\"a\":1\x7d,\x7b\"b\":2\x7d]"

/-- Concrete input whose parsed arrays carry elements that are not of the
declared element shapes. -/
def c1Input : String := "\x7b\"ingredients\":[5],\"instructions\":[5]\x7d"

/-- C10: in the last-resort sentence fallback, every sentence is tested
against the ingredient criteria first: the ingredient list collects
exactly the sentences meeting the ingredient criteria and the instruction
list collects exactly the sentences that fail the ingredient criteria and
contain a cooking verb, in order — so a sentence meeting both criteria is
classified as an ingredient only and never enters the instructions. -/
theorem classifySentences_ingredient_first (ss : List (List Char)) :
    (classifySentences ss).1 =
      (ss.filter (fun s => ingredientCriteria s)).map (fun s => mkIng "1" "" ⟨s⟩) ∧
    (classifySentences ss).2 =
      (ss.filter (fun s => !ingredientCriteria s && instructionCriteria s)).map
        (fun s => Json.str ⟨s⟩) := by
  induction ss with
  | nil => exact ⟨rfl, rfl⟩
  | cons s rest ih =>
    cases hi : ingredientCriteria s <;> cases hj : instructionCriteria s <;>
      simp [classifySentences, hi, hj, ih.1, ih.2]

/-- C9: with a non-empty image payload and a missing, empty or placeholder
credential, the handler returns the sample-recipe success outcome (no
service call), the sample title contains Sample, and its instructions
include the credential setup step. -/
theorem handlePOST_sample_mode (key : Option String) (img : String)
    (us : Option UnitSystem) (h1 : img ≠ "") (h2 : keyNotConfigured key = true) :
    handlePOST key img us = HandlerStep.sampleResponse sampleRecipe ∧
    containsSubstr sampleRecipe.title.data "Sample".data = true ∧
    Json.str "Configure your OpenAI API key in the .env.local file" ∈
      sampleRecipe.instructions := by
  refine ⟨?_, by decide, by simp [sampleRecipe]⟩
  simp only [handlePOST, if_neg h1, h2, if_true]

/-- Witness for C9 at a concrete request: no credential, payload x. -/
theorem handlePOST_sample_mode_witness :
    handlePOST none "x" none = HandlerStep.sampleResponse sampleRecipe ∧
    containsSubstr sampleRecipe.title.data "Sample".data = true ∧
    Json.str "Configure your OpenAI API key in the .env.local file" ∈
      sampleRecipe.instructions :=
  handlePOST_sample_mode none "x" none (by decide) rfl

set_option maxRecDepth 40000 in
/-- C8 counterexample: with a configured credential the handler reaches
the service call with the fixed RECIPE_PROMPT for both unit preferences;
the prompt is identical in the two cases and contains none of the
unit-system formatting rules the claim requires. -/
theorem handlePOST_prompt_ignores_units :
    handlePOST (some "sk-abc123") "img" (some UnitSystem.metric) =
      HandlerStep.callService RECIPE_PROMPT ∧
    handlePOST (some "sk-abc123") "img" (some UnitSystem.imperial) =
      HandlerStep.callService RECIPE_PROMPT ∧
    containsSubstr RECIPE_PROMPT.data "METRIC".data = false ∧
    containsSubstr RECIPE_PROMPT.data "IMPERIAL".data = false ∧
    containsSubstr RECIPE_PROMPT.data "grams".data = false ∧
    containsSubstr RECIPE_PROMPT.data "Fahrenheit".data = false :=
  ⟨rfl, rfl, by decide, by decide, by decide, by decide⟩

/-- C8 amended: the handler outcome does not depend on the unit
preference at all, while the unused helper getUnitSystemPrompt does
produce distinct unit-specific rules for the two preferences. -/
theorem handlePOST_independent_of_units (key : Option String) (img : String)
    (us us' : Option UnitSystem) :
    handlePOST key img us = handlePOST key img us' ∧
    getUnitSystemPrompt UnitSystem.metric ≠ getUnitSystemPrompt UnitSystem.imperial ∧
    containsSubstr (getUnitSystemPrompt UnitSystem.metric).data "grams".data = true ∧
    containsSubstr (getUnitSystemPrompt UnitSystem.metric).data "Celsius".data = true ∧
    containsSubstr (getUnitSystemPrompt UnitSystem.imperial).data "ounces".data = true ∧
    containsSubstr (getUnitSystemPrompt UnitSystem.imperial).data "cups".data = true ∧
    containsSubstr (getUnitSystemPrompt UnitSystem.imperial).data "Fahrenheit".data = true :=
  ⟨rfl, by decide, by decide, by decide, by decide, by decide, by decide⟩

/-- C7 amended: a filtered ingredient line whose cleaned form is non-empty
and does not decompose under the quantity regex yields an Ingredient whose
name AND quantity are both the entire cleaned line, with an empty unit
(the whole-line fallback capture is reused for the quantity field). -/
theorem lineIngredient_whole_line (l cleaned : List Char)
    (hc : jsTrimL (stripBulletOrNum l) = cleaned)
    (hne : cleaned.isEmpty = false)
    (hq : qtyMatch cleaned = none)
    (hd : cleaned.all dotChar = true) :
    lineIngredient l = some (mkIng ⟨cleaned⟩ "" ⟨cleaned⟩) := by
  simp only [lineIngredient, hc, hne, hq, hd]
  simp

/-- Witness for the amended C7 at the line salt to taste. -/
theorem lineIngredient_whole_line_witness :
    lineIngredient "salt to taste".data =
      some (mkIng "salt to taste" "" "salt to taste") :=
  lineIngredient_whole_line "salt to taste".data "salt to taste".data rfl rfl rfl rfl

/-- C7 counterexample: the line salt to taste does not decompose, and the
resulting Ingredient has quantity equal to the whole line, not the string
1 that the claim requires. -/
theorem lineIngredient_salt_counterexample :
    qtyMatch "salt to taste".data = none ∧
    lineIngredient "salt to taste".data =
      some (mkIng "salt to taste" "" "salt to taste") ∧
    lineIngredient "salt to taste".data ≠ some (mkIng "1" "" "salt to taste") := by
  refine ⟨rfl, rfl, ?_⟩
  intro h
  have h2 := congrArg (fun o =>
    match o with
    | some (Json.obj (("quantity", Json.str q) :: _)) => q
    | _ => "") h
  exact absurd h2 (by decide)

/-- C4 amended: the trimmed whole-text retry runs exactly when the fenced
and embedded extraction finds no candidate at all; under that condition
the pipeline agrees with the specified trimmed-retry behaviour. -/
theorem parseRecipe_trimmed_retry (s : String)
    (h1 : jsonParse s = none) (h2 : jsonMatchExtract s = none) :
    parseRecipeFromResponse s = claimedTrimmedRetry s := by
  simp only [parseRecipeFromResponse, h1, recoverFromText, h2, claimedTrimmedRetry]

/-- Witness for the amended C4: a no-break space followed by true has no
brace candidate, and the pipeline equals the trimmed retry there. -/
theorem parseRecipe_trimmed_retry_witness :
    parseRecipeFromResponse " true" = claimedTrimmedRetry " true" :=
  parseRecipe_trimmed_retry " true" rfl rfl

/-- C4 counterexample: on a JSON array behind a no-break space the direct
parse fails, the embedded candidate exists but fails to parse, and the
pipeline skips the trimmed retry (which would succeed) and falls straight
back to free-text extraction, so its output differs from the claimed
behaviour. -/
theorem trimmed_retry_skipped_counterexample :
    jsonParse c4Input = none ∧
    jsonMatchExtract c4Input = some "\x7b\"a\":1\x7d,\x7b\"b\":2\x7d" ∧
    jsonParse "\x7b\"a\":1\x7d,\x7b\"b\":2\x7d" = none ∧
    ((claimedTrimmedRetry c4Input).ingredients.length = 0 ∧
     (parseRecipeFromResponse c4Input).ingredients.length = 1) ∧
    parseRecipeFromResponse c4Input ≠ claimedTrimmedRetry c4Input := by
  refine ⟨rfl, rfl, rfl, ⟨rfl, rfl⟩, ?_⟩
  intro h
  exact absurd (congrArg (fun r => r.ingredients.length) h) (by decide)

/-- C5: when no structured parse succeeds anywhere, no section is mined
and no sentence classifies, the pipeline returns exactly one placeholder
ingredient and exactly one placeholder instruction. -/
theorem pipeline_placeholders (s : String)
    (h1 : jsonParse s = none)
    (h2 : jsonMatchExtract s = none)
    (h3 : jsonParse (jsTrim s) = none)
    (h4 : ingredientItems s.data = [])
    (h5 : instructionItems s.data = [])
    (h6 : classifySentences (sentencesOf s.data) = ([], [])) :
    (parseRecipeFromResponse s).ingredients = [placeholderIngredient] ∧
    (parseRecipeFromResponse s).instructions = [placeholderInstruction] := by
  simp only [parseRecipeFromResponse, h1, recoverFromText, h2, h3,
    extractRecipeFromText, h4, h5, h6]
  simp

/-- Witness for C5 at the empty input. -/
theorem pipeline_placeholders_witness :
    (parseRecipeFromResponse "").ingredients = [placeholderIngredient] ∧
    (parseRecipeFromResponse "").instructions = [placeholderInstruction] :=
  pipeline_placeholders "" rfl rfl rfl rfl rfl rfl

set_option maxRecDepth 40000 in
/-- C6: when no structured parse succeeds and both section miners produce
non-empty lists, the pipeline returns exactly those lists, in their mined
order, with the mined title. -/
theorem pipeline_sections (s : String)
    (h1 : jsonParse s = none) (h2 : jsonMatchExtract s = none)
    (h3 : jsonParse (jsTrim s) = none)
    (h4 : 0 < (ingredientItems s.data).length)
    (h5 : 0 < (instructionItems s.data).length) :
    (parseRecipeFromResponse s).title = extractTitle s.data ∧
    (parseRecipeFromResponse s).ingredients = ingredientItems s.data ∧
    (parseRecipeFromResponse s).instructions = instructionItems s.data := by
  simp only [parseRecipeFromResponse, h1, recoverFromText, h2, h3, extractRecipeFromText]
  rw [if_neg (by omega : ¬((ingredientItems s.data).length = 0 ∧
    (instructionItems s.data).length = 0))]
  rw [if_pos h4, if_pos h5]
  exact ⟨trivial, rfl, rfl⟩

set_option maxRecDepth 200000 in
/-- Witness for C6 at the Pancakes input: the mined title, the two
decomposed ingredients, and the two instructions in order. -/
theorem pipeline_sections_witness :
    (parseRecipeFromResponse pancakesInput).title = "Pancakes" ∧
    (parseRecipeFromResponse pancakesInput).ingredients =
      [mkIng "2" "cups" "flour", mkIng "1" "cup" "milk"] ∧
    (parseRecipeFromResponse pancakesInput).instructions =
      [Json.str "Mix ingredients together", Json.str "Cook on griddle until golden"] := by
  have h := pipeline_sections pancakesInput rfl rfl rfl (by decide) (by decide)
  exact ⟨h.1.trans rfl, h.2.1.trans rfl, h.2.2.trans rfl⟩

/-- C2: when the whole input parses as a JSON object carrying a string
title, an ingredients array and an instructions array, the pipeline
returns those three fields unchanged. -/
theorem pipeline_identity (s t : String) (fs : List (String × Json))
    (ings instrs : List Json)
    (hp : jsonParse s = some (Json.obj fs))
    (ht : lookupLast fs "title" = some (Json.str t))
    (hi : lookupLast fs "ingredients" = some (Json.arr ings))
    (hn : lookupLast fs "instructions" = some (Json.arr instrs)) :
    (parseRecipeFromResponse s).title = t ∧
    (parseRecipeFromResponse s).ingredients = ings ∧
    (parseRecipeFromResponse s).instructions = instrs := by
  simp only [parseRecipeFromResponse, hp, validateAndFormatRecipe, getField, ht, hi, hn]
  exact ⟨trivial, trivial, trivial⟩

/-- Witness for C2 at the Omelette input: title unchanged, exactly one
ingredient, both instructions unchanged and in order. -/
theorem pipeline_identity_witness :
    (parseRecipeFromResponse omeletteInput).title = "Omelette" ∧
    (parseRecipeFromResponse omeletteInput).ingredients.length = 1 ∧
    (parseRecipeFromResponse omeletteInput).instructions =
      [Json.str "Beat eggs", Json.str "Cook in pan"] := by
  have h := pipeline_identity omeletteInput "Omelette" omeletteFields
    [Json.obj [("name", Json.str "egg"), ("quantity", Json.str "2"), ("unit", Json.str "")]]
    [Json.str "Beat eggs", Json.str "Cook in pan"] rfl rfl rfl rfl
  exact ⟨h.1, by rw [h.2.1]; rfl, h.2.2⟩

/-- The free-text recipe never sets a cooking time. -/
theorem extract_cookingTime (s : String) : (extractRecipeFromText s).cookingTime = none := rfl

/-- The free-text recipe never sets a servings count. -/
theorem extract_servings (s : String) : (extractRecipeFromText s).servings = none := rfl

/-- Any Recipe produced by field coercion has numeric-or-unset cookingTime
and servings. -/
theorem validate_numericOrUnset (j : Json) (r : Recipe)
    (h : validateAndFormatRecipe j = some r) :
    numericOrUnset r.cookingTime ∧ numericOrUnset r.servings := by
  rw [validateAndFormatRecipe.eq_def] at h
  split at h
  · exact absurd h (by simp)
  · rw [← Option.some.inj h]
    constructor
    · show numericOrUnset (match getField _ "cookingTime" with
        | some (Json.num n) => some (Json.num n)
        | _ => none)
      split <;> trivial
    · show numericOrUnset (match getField _ "servings" with
        | some (Json.num n) => some (Json.num n)
        | _ => none)
      split <;> trivial

/-- The validated-or-extracted recipe of a catch block has numeric-or-unset
optional fields. -/
theorem match_validate_numeric (j : Json) (s : String) :
    numericOrUnset (match validateAndFormatRecipe j with
      | some r => r
      | none => extractRecipeFromText s).cookingTime ∧
    numericOrUnset (match validateAndFormatRecipe j with
      | some r => r
      | none => extractRecipeFromText s).servings := by
  rcases hv : validateAndFormatRecipe j with _ | r
  · exact ⟨by rw [extract_cookingTime]; trivial, by rw [extract_servings]; trivial⟩
  · exact validate_numericOrUnset j r hv

/-- The recovery chain preserves numeric-or-unset optional fields. -/
theorem recover_numeric (s : String) :
    numericOrUnset (recoverFromText s).cookingTime ∧
    numericOrUnset (recoverFromText s).servings := by
  rw [recoverFromText]
  rcases hm : jsonMatchExtract s with _ | g <;> dsimp only
  · rcases hp : jsonParse (jsTrim s) with _ | j <;> dsimp only
    · exact ⟨by rw [extract_cookingTime]; trivial, by rw [extract_servings]; trivial⟩
    · exact match_validate_numeric j s
  · rcases hp : jsonParse g with _ | j <;> dsimp only
    · exact ⟨by rw [extract_cookingTime]; trivial, by rw [extract_servings]; trivial⟩
    · exact match_validate_numeric j s

/-- Every ingredient object the free-text miner builds is of the declared
element shape. -/
theorem ingredientShaped_mkIng (q u n : String) :
    ingredientShaped (mkIng q u n) = true := rfl

/-- Every ingredient an ingredient line yields is of the declared shape. -/
theorem lineIngredient_shaped (l : List Char) (j : Json)
    (h : lineIngredient l = some j) : ingredientShaped j = true := by
  rw [lineIngredient] at h
  split at h
  · exact absurd h (by simp)
  · split at h
    · rw [← Option.some.inj h]; exact ingredientShaped_mkIng _ _ _
    · split at h
      · rw [← Option.some.inj h]; exact ingredientShaped_mkIng _ _ _
      · exact absurd h (by simp)

/-- Every element of the mined ingredient list is of the declared shape. -/
theorem ingredientItems_shaped (cs : List Char) :
    (ingredientItems cs).all ingredientShaped = true := by
  rw [ingredientItems]
  split
  · rfl
  · rw [List.all_eq_true]
    intro j hj
    rw [List.mem_filterMap] at hj
    obtain ⟨l, _, hl⟩ := hj
    exact lineIngredient_shaped l j hl

/-- Every instruction an instruction line yields is a string. -/
theorem lineInstruction_isStr (l : List Char) (j : Json)
    (h : lineInstruction l = some j) : Json.isStr j = true := by
  rw [lineInstruction] at h
  split at h
  · rw [← Option.some.inj h]; rfl
  · exact absurd h (by simp)

/-- Every element of the mined instruction list is a string. -/
theorem instructionItems_isStr (cs : List Char) :
    (instructionItems cs).all Json.isStr = true := by
  rw [instructionItems]
  split
  · rfl
  · rw [List.all_eq_true]
    intro j hj
    rw [List.mem_filterMap] at hj
    obtain ⟨l, _, hl⟩ := hj
    exact lineInstruction_isStr l j hl

/-- The sentence fallback also only builds shaped ingredients and string
instructions. -/
theorem classifySentences_shaped (ss : List (List Char)) :
    (classifySentences ss).1.all ingredientShaped = true ∧
    (classifySentences ss).2.all Json.isStr = true := by
  induction ss with
  | nil => exact ⟨rfl, rfl⟩
  | cons s rest ih =>
    cases hi : ingredientCriteria s <;> cases hj : instructionCriteria s <;>
      simp [classifySentences, hi, hj, ih.1, ih.2, ingredientShaped_mkIng, Json.isStr]

/-- The free-text fallback recipe carries only shaped ingredients and
string instructions, placeholders included. -/
theorem extract_shaped (s : String) :
    (extractRecipeFromText s).ingredients.all ingredientShaped = true ∧
    (extractRecipeFromText s).instructions.all Json.isStr = true := by
  rw [extractRecipeFromText]
  dsimp only
  by_cases hc : (ingredientItems s.data).length = 0 ∧ (instructionItems s.data).length = 0
  · rw [if_pos hc]
    constructor
    · split
      · exact (classifySentences_shaped _).1
      · rfl
    · split
      · exact (classifySentences_shaped _).2
      · rfl
  · rw [if_neg hc]
    constructor
    · split
      · exact ingredientItems_shaped _
      · rfl
    · split
      · exact instructionItems_isStr _
      · rfl

/-- C1 amended: the pipeline is total and its optional numeric fields are
always numeric or unset; the free-text path additionally guarantees the
declared element shapes.  (When a structured parse succeeds, the arrays
are passed through without element validation, so the shape guarantee of
the original claim does not hold there.) -/
theorem pipeline_total_coercion (s : String) :
    numericOrUnset (parseRecipeFromResponse s).cookingTime ∧
    numericOrUnset (parseRecipeFromResponse s).servings ∧
    (extractRecipeFromText s).ingredients.all ingredientShaped = true ∧
    (extractRecipeFromText s).instructions.all Json.isStr = true := by
  obtain ⟨e1, e2⟩ := extract_shaped s
  have hnum : numericOrUnset (parseRecipeFromResponse s).cookingTime ∧
      numericOrUnset (parseRecipeFromResponse s).servings := by
    rw [parseRecipeFromResponse]
    rcases hp : jsonParse s with _ | j <;> dsimp only
    · exact recover_numeric s
    · rcases hv : validateAndFormatRecipe j with _ | r <;> dsimp only
      · exact recover_numeric s
      · exact validate_numericOrUnset j r hv
  exact ⟨hnum.1, hnum.2, e1, e2⟩

/-- C1 counterexample: a parsed object whose arrays carry the number five
flows through unvalidated, so the returned Recipe has an ingredient that
is not of the declared Ingredient shape and an instruction that is not a
string. -/
theorem element_shapes_counterexample :
    ((parseRecipeFromResponse c1Input).ingredients.all ingredientShaped &&
     (parseRecipeFromResponse c1Input).instructions.all Json.isStr) = false := by
  decide

/-- A backtick is not JSON whitespace, so the parser stops right away. -/
theorem dropWhile_btick (rest : List Char) :
    (btick :: rest).dropWhile jsonWsC = btick :: rest := by
  rw [List.dropWhile_cons, show jsonWsC btick = false from rfl]
  simp

/-- No JSON value starts with a backtick. -/
theorem parseVal_btick (n : Nat) (rest : List Char) :
    parseVal (n + 1) (btick :: rest) = none := by
  simp only [parseVal]
  rw [dropWhile_btick]
  split
  · rename_i heq; injection heq with h1 _; exact absurd h1 (by decide)
  · rename_i heq; injection heq with h1 _; exact absurd h1 (by decide)
  · rename_i heq; injection heq with h1 _; exact absurd h1 (by decide)
  · rename_i heq; injection heq with h1 _; exact absurd h1 (by decide)
  · rename_i heq; injection heq with h1 _; exact absurd h1 (by decide)
  · rename_i heq; injection heq with h1 _; exact absurd h1 (by decide)
  · rename_i c r heq
    injection heq with h1 h2
    rw [← h1]
    simp [show (btick = '-' || btick.isDigit) = false from rfl]
  · rename_i heq; exact absurd heq (by simp)

/-- A string whose first character is a backtick is not JSON. -/
theorem jsonParse_btick (s : String) (rest : List Char) (h : s.data = btick :: rest) :
    jsonParse s = none := by
  rw [jsonParse, h]
  rw [show (btick :: rest).length + 1 = rest.length + 1 + 1 from by simp]
  rw [parseVal_btick]

/-- Greedy capture search over a reversed closing fence: the three
backticks and the newline are stepped over, and the split lands on the
closing brace with a valid whitespace-backticks tail. -/
theorem splitLongest_close (R : List Char) :
    splitLongest (btick :: btick :: btick :: '\n' :: '}' :: R) [] =
      some (('}' :: R).reverse) := by
  simp only [splitLongest,
    show (btick = '}' && closeOk []) = false from rfl,
    show (btick = '}' && closeOk [btick]) = false from rfl,
    show (btick = '}' && closeOk [btick, btick]) = false from rfl,
    show ('\n' = '}' && closeOk [btick, btick, btick]) = false from rfl,
    show ('}' = '}' && closeOk ['\n', btick, btick, btick]) = true from rfl]
  simp
  intro h
  exact absurd h (by decide)

/-- The fence-opening search after the optional tag: skip the newline,
meet the opening brace, and capture up to the closing fence. -/
theorem fencedOpen_wrap (mid : List Char) :
    fencedOpen ('\n' :: (('{' :: (mid ++ ['}'])) ++ ('\n' :: btick :: btick :: btick :: []))) =
      some ('{' :: (mid ++ ['}'])) := by
  have hd : ('\n' :: (('{' :: (mid ++ ['}'])) ++ ('\n' :: btick :: btick :: btick :: []))).dropWhile jsWs
      = '{' :: ((mid ++ ['}']) ++ ('\n' :: btick :: btick :: btick :: [])) := by
    rw [List.dropWhile_cons, show jsWs '\n' = true from rfl]
    rw [List.cons_append, List.dropWhile_cons, show jsWs '{' = false from rfl]
    simp
  rw [fencedOpen, hd]
  dsimp only
  rw [if_pos rfl, fencedBody]
  have hr : ('{' :: ((mid ++ ['}']) ++ ('\n' :: btick :: btick :: btick :: []))).reverse
      = btick :: btick :: btick :: '\n' :: '}' :: (mid.reverse ++ ['{']) := by
    simp
  rw [hr, splitLongest_close]
  simp

/-- With the json tag present the tag branch is taken first. -/
theorem fencedTag_json (rest : List Char) :
    fencedTag ('j' :: 's' :: 'o' :: 'n' :: rest) =
      (fencedOpen rest <|> fencedOpen ('j' :: 's' :: 'o' :: 'n' :: rest)) := by
  rw [fencedTag]
  rw [if_pos (by simp [jsonTag])]
  simp

/-- Without a tag the fence body follows the newline at once. -/
theorem fencedTag_newline (rest : List Char) :
    fencedTag ('\n' :: rest) = fencedOpen ('\n' :: rest) := by
  rw [fencedTag]
  rw [if_neg (by simp [jsonTag])]
  simp

/-- At an opening fence the three backticks are consumed. -/
theorem fencedAt_wrap (rest : List Char) :
    fencedAt (btick :: btick :: btick :: rest) = fencedTag rest := by
  rw [fencedAt]
  rw [if_pos (by simp)]

/-- A text that begins with a matching fence makes the leftmost search
succeed right away. -/
theorem fencedSearch_wrap (rest g : List Char) (h : fencedTag rest = some g) :
    fencedSearch (btick :: btick :: btick :: rest) = some g := by
  rw [show fencedSearch (btick :: btick :: btick :: rest)
      = (fencedAt (btick :: btick :: btick :: rest) <|> fencedSearch (btick :: btick :: rest))
      from rfl]
  rw [fencedAt_wrap, h]
  rfl

/-- C3: an input that is exactly a triple-backtick fenced block (tagged
json or untagged) whose interior is a brace-delimited JSON object that
parses and validates is routed through the fenced extraction, and the
pipeline output equals the direct-parse output on the interior text. -/
theorem parseRecipe_fenced (content inner : String) (mid : List Char) (j : Json) (r : Recipe)
    (hc : content = "```json\n" ++ inner ++ "\n```" ∨ content = "```\n" ++ inner ++ "\n```")
    (hin : inner.data = '{' :: (mid ++ ['}']))
    (hj : jsonParse inner = some j)
    (hv : validateAndFormatRecipe j = some r) :
    parseRecipeFromResponse content = parseRecipeFromResponse inner ∧
    parseRecipeFromResponse content = r := by
  have hinner : parseRecipeFromResponse inner = r := by
    rw [parseRecipeFromResponse, hj]
    dsimp only
    rw [hv]
  have hshape : ∃ rest, content.data = btick :: btick :: btick :: rest ∧
      fencedTag rest = some inner.data := by
    rcases hc with hc | hc <;> subst hc
    · refine ⟨'j' :: 's' :: 'o' :: 'n' :: '\n' ::
        (inner.data ++ ('\n' :: btick :: btick :: btick :: [])), ?_, ?_⟩
      · rw [String.data_append, String.data_append]
        rw [show ("```json\n").data = [btick, btick, btick, 'j', 's', 'o', 'n', '\n'] from rfl,
            show ("\n```").data = ['\n', btick, btick, btick] from rfl]
        simp
      · rw [fencedTag_json]
        rw [hin, fencedOpen_wrap]
        rfl
    · refine ⟨'\n' :: (inner.data ++ ('\n' :: btick :: btick :: btick :: [])), ?_, ?_⟩
      · rw [String.data_append, String.data_append]
        rw [show ("```\n").data = [btick, btick, btick, '\n'] from rfl,
            show ("\n```").data = ['\n', btick, btick, btick] from rfl]
        simp
      · rw [fencedTag_newline]
        rw [hin, fencedOpen_wrap]
  obtain ⟨rest, hdata, htag⟩ := hshape
  have hnone : jsonParse content = none :=
    jsonParse_btick content (btick :: btick :: rest) hdata
  have hmatch : jsonMatchExtract content = some inner := by
    rw [jsonMatchExtract, hdata, fencedSearch_wrap rest inner.data htag]
    rfl
  have houter : parseRecipeFromResponse content = r := by
    rw [parseRecipeFromResponse, hnone]
    dsimp only
    rw [recoverFromText, hmatch]
    dsimp only
    rw [hj]
    dsimp only
    rw [hv]
  exact ⟨houter.trans hinner.symm, houter⟩

/-- Witness for C3 at the fenced Soup input: the pipeline agrees with the
direct parse of the interior and yields the Soup recipe fields. -/
theorem parseRecipe_fenced_witness :
    parseRecipeFromResponse soupFenced = parseRecipeFromResponse soupInner ∧
    (parseRecipeFromResponse soupFenced).title = "Soup" ∧
    (parseRecipeFromResponse soupFenced).ingredients = [] ∧
    (parseRecipeFromResponse soupFenced).instructions = [Json.str "Boil water"] := by
  have h := parseRecipe_fenced soupFenced soupInner
    ("\"title\":\"Soup\",\"ingredients\":[],\"instructions\":[\"Boil water\"]").data
    (Json.obj [("title", Json.str "Soup"), ("ingredients", Json.arr []),
      ("instructions", Json.arr [Json.str "Boil water"])])
    { title := "Soup", description := "", ingredients := [],
      instructions := [Json.str "Boil water"], cookingTime := none, servings := none }
    (Or.inl rfl) rfl rfl rfl
  exact ⟨h.1, by rw [h.2], by rw [h.2], by rw [h.2]⟩
